import Mathlib

/-!
# A shallow embedding of the `gdbstub` protocol engine

This file embeds, in Lean 4, the parts of the `gdbstub` GDB Remote Serial
Protocol server that its specification makes claims about:

* the `qSupported` capability-advertisement handler,
* the `qXfer:features:read` handler (static-XML path),
* the single- and multi-thread `vCont` resume machines,
* the chunked `m` (memory read) handler,
* the `H` (thread-selection) handler and `get_sane_any_tid`,
* the stop-reason encoder `finish_exec` / `write_break_common`,
* the `qRegisterInfo` extension handler.

Source of truth: `src/gdbstub_impl/ext/base.rs` and
`src/stub/core_impl/register_info.rs`.

Effects are made explicit:

* every call the handler makes on the `ResponseWriter` (`write_str`,
  `write_num`, `write_hex_buf`, `write_binary`,
  `write_specific_thread_id`) becomes one `OutTok` appended to an output
  token list;
* every call the handler makes on the host target's base operations
  becomes one `HostCall` appended to a trace;
* the mutable engine fields touched by these handlers
  (`current_mem_tid`, `current_resume_tid`) become a `GdbState` record
  threaded explicitly.

Host target operations are modelled as successful (the claims under
study concern the engine's own control flow, not host-side failures);
the engine's own error paths (`Error::...` / early `return Err`) are
modelled with `Except Err`.
-/

namespace Gdbstub

/-- Type `SpecificIdKind` from `src/protocol`: a thread-id selector that is
either the "all" wildcard or one concrete id.  (Tids are `NonZeroUsize`
in the source; they are modelled as `Nat`.) -/
inductive SpecificIdKind where
  | all : SpecificIdKind
  | withId (tid : Nat) : SpecificIdKind
deriving DecidableEq, Repr

/-- Type `IdKind` from `src/protocol`: the thread-id selector as parsed from
an `H` packet, which can additionally be the "any" (0) selector. -/
inductive IdKind where
  | all : IdKind
  | any : IdKind
  | withId (tid : Nat) : IdKind
deriving DecidableEq, Repr

/-- Type `SpecificThreadId`: an optional process selector paired with a
thread selector. -/
structure SpecificThreadId where
  pid : Option SpecificIdKind
  tid : SpecificIdKind
deriving DecidableEq, Repr

/-- Type `ThreadId` as parsed from an `H` packet (both components may still
be `any`). Only the `tid` component is inspected by the handlers under
study. -/
structure ThreadId where
  pid : Option IdKind
  tid : IdKind
deriving DecidableEq, Repr

/-- One call on the `ResponseWriter`.  `str` is `write_str`, `num` is
`write_num` (unsigned, lower-hex), `hexBuf` is `write_hex_buf`, `bin`
is `write_binary`, `threadId` is `write_specific_thread_id`. -/
inductive OutTok where
  | str (s : String) : OutTok
  | num (n : Nat) : OutTok
  | hexBuf (bytes : List Nat) : OutTok
  | bin (bytes : List Nat) : OutTok
  | threadId (t : SpecificThreadId) : OutTok
deriving DecidableEq, Repr

/-- One call on the host target's operations. -/
inductive HostCall where
  | clearResumeActions : HostCall
  | setResumeActionContinue (tid : Nat) (sig : Option Nat) : HostCall
  | setResumeActionStep (tid : Nat) (sig : Option Nat) : HostCall
  | setResumeActionRangeStep (tid start stop : Nat) : HostCall
  | resume : HostCall
  | resumeWithSig (sig : Option Nat) : HostCall
  | step (sig : Option Nat) : HostCall
  | resumeRangeStep (start stop : Nat) : HostCall
  | readAddrs (addr len : Nat) : HostCall
deriving DecidableEq, Repr

/-- The engine's error type (`Error<T, C>` in `src`), restricted to the
variants the embedded handlers can produce. -/
inductive Err where
  | packetUnexpected : Err
  | malformedCommand : Err
  | noActiveThreads : Err
  | unsupportedStopReason : Err
  | targetMismatch : Err
deriving DecidableEq, Repr

/-- Type `DisconnectReason` from `src`. -/
inductive DisconnectReason where
  | targetExited (code : Nat) : DisconnectReason
  | targetTerminated (sig : Nat) : DisconnectReason
  | disconnect : DisconnectReason
  | kill : DisconnectReason
deriving DecidableEq, Repr

/-- Type `HandlerStatus` from `src`. -/
inductive HandlerStatus where
  | handled : HandlerStatus
  | needsOk : HandlerStatus
  | deferredStopReason : HandlerStatus
  | disconnect (reason : DisconnectReason) : HandlerStatus
deriving DecidableEq, Repr

/-- Type `FinishExecStatus` from `src/gdbstub_impl/ext/base.rs`. -/
inductive FinishExecStatus where
  | handled : FinishExecStatus
  | disconnect (reason : DisconnectReason) : FinishExecStatus
deriving DecidableEq, Repr

/-- Capabilities reachable through `target.support_extended_mode()`. -/
structure ExtendedModeCaps where
  configureAslr : Bool
  configureEnv : Bool
  configureStartupShell : Bool
  configureWorkingDir : Bool
deriving DecidableEq, Repr

/-- Capabilities reachable through `target.support_breakpoints()`. -/
structure BreakpointsCaps where
  swBreakpoint : Bool
  hwBreakpoint : Bool
  hwWatchpoint : Bool
deriving DecidableEq, Repr

/-- The host target's capability surface, as the embedded handlers
observe it.  `multiThread` selects the `BaseOps` variant;
`activeThreads` is the sequence of tids a multi-thread target's
`list_active_threads` reports to its callback, in callback order. -/
structure TargetCfg where
  multiThread : Bool
  activeThreads : List Nat
  supportSingleStep : Bool
  supportRangeStep : Bool
  supportReverseCont : Bool
  supportReverseStep : Bool
  extendedMode : Option ExtendedModeCaps
  breakpoints : Option BreakpointsCaps
  catchSyscalls : Bool
  tdXmlOverride : Option (Nat → Nat → Nat → List Nat)
  archXml : Option String
  memoryMap : Bool
  execFile : Bool
  auxv : Bool
  registerInfo : Option (Nat → Option String)

/-- Mutable engine state touched by the embedded handlers. -/
structure GdbState where
  currentMemTid : Nat
  currentResumeTid : SpecificIdKind
deriving DecidableEq, Repr

/-- Constant `FAKE_PID` (reported when multiprocess is advertised but the host
models no processes).  Modelled from the spec: the constant lives in
the crate root, which is not among the provided sources; its concrete
value is immaterial to every claim. -/
def FAKE_PID : Nat := 1

/-- Constant `SINGLE_THREAD_TID` (the fixed tid of single-threaded targets).
Modelled from the spec: the constant lives in the crate root, which is
not among the provided sources; its concrete value is immaterial to
every claim. -/
def SINGLE_THREAD_TID : Nat := 1

/-- An `if`-guarded fragment: the response-writer calls produced by one
`if cond { res.write_str(s)?; }` block in the source. -/
def optTok (cond : Bool) (t : OutTok) : List OutTok :=
  if cond then [t] else []

/-- The `Base::qSupported(cmd)` arm of `handle_base`
(`src/gdbstub_impl/ext/base.rs:43-129`), as the sequence of
response-writer calls it performs.  `packetBufferLen` is
`cmd.packet_buffer_len`. -/
def qSupportedToks (tgt : TargetCfg) (packetBufferLen : Nat) : List OutTok :=
  [OutTok.str "PacketSize=", OutTok.num packetBufferLen,
   OutTok.str ";vContSupported+", OutTok.str ";multiprocess+",
   OutTok.str ";QStartNoAckMode+"]
  ++ optTok tgt.supportReverseCont (OutTok.str ";ReverseContinue+")
  ++ optTok tgt.supportReverseStep (OutTok.str ";ReverseStep+")
  ++ (match tgt.extendedMode with
      | none => []
      | some ext =>
        optTok ext.configureAslr (OutTok.str ";QDisableRandomization+")
        ++ (if ext.configureEnv then
              [OutTok.str ";QEnvironmentHexEncoded+",
               OutTok.str ";QEnvironmentUnset+",
               OutTok.str ";QEnvironmentReset+"]
            else [])
        ++ optTok ext.configureStartupShell (OutTok.str ";QStartupWithShell+")
        ++ optTok ext.configureWorkingDir (OutTok.str ";QSetWorkingDir+"))
  ++ (match tgt.breakpoints with
      | none => []
      | some bp =>
        optTok bp.swBreakpoint (OutTok.str ";swbreak+")
        ++ optTok (bp.hwBreakpoint || bp.hwWatchpoint) (OutTok.str ";hwbreak+"))
  ++ optTok tgt.catchSyscalls (OutTok.str ";QCatchSyscalls+")
  ++ optTok (tgt.archXml.isSome || tgt.tdXmlOverride.isSome) (OutTok.str ";qXfer:features:read+")
  ++ optTok tgt.memoryMap (OutTok.str ";qXfer:memory-map:read+")
  ++ optTok tgt.execFile (OutTok.str ";qXfer:exec-file:read+")
  ++ optTok tgt.auxv (OutTok.str ";qXfer:auxv:read+")

/-- A capability reached through `target.support_extended_mode()`:
present when extended mode is present and the sub-capability is. -/
def extCap (tgt : TargetCfg) (f : ExtendedModeCaps → Bool) : Bool :=
  (tgt.extendedMode.map f).getD false

/-- A capability reached through `target.support_breakpoints()`:
present when the breakpoints extension is present and the
sub-capability is. -/
def bpCap (tgt : TargetCfg) (f : BreakpointsCaps → Bool) : Bool :=
  (tgt.breakpoints.map f).getD false

/-- Type `VContKind` from `src/protocol/commands/_vCont.rs` (that file is not
among the provided sources; the variants and their payloads are exactly
the ones `do_vcont_single_thread` / `do_vcont_multi_thread` match on).
Range bounds arrive already decoded; decoding failures of the raw hex
(`TargetMismatch`) happen before the behaviour the claims describe. -/
inductive VContKind where
  | cont : VContKind
  | contWithSig (sig : Nat) : VContKind
  | step : VContKind
  | stepWithSig (sig : Nat) : VContKind
  | rangeStep (start stop : Nat) : VContKind
  | stop : VContKind
deriving DecidableEq, Repr

/-- A single `vCont` action: a kind plus an optional thread selector. -/
structure VContAction where
  kind : VContKind
  thread : Option SpecificThreadId
deriving DecidableEq, Repr

/-- One iteration of the action loop in `do_vcont_multi_thread`
(`src/gdbstub_impl/ext/base.rs:529-603`): the host calls made for one
parsed action (`none` models an action the parser could not parse). -/
def processMTAction (tgt : TargetCfg) (a : Option VContAction) : Except Err (List HostCall) :=
  match a with
  | none => Except.error Err.malformedCommand
  | some act =>
    match act.kind with
    | VContKind.cont | VContKind.contWithSig _ =>
      let signal := match act.kind with
        | VContKind.contWithSig sig => some sig
        | _ => none
      match act.thread.map (fun thread => thread.tid) with
      | none | some SpecificIdKind.all =>
        -- an action with no thread-id matches all threads; the target API
        -- contract makes continue the default resume action for all threads
        Except.ok []
      | some (SpecificIdKind.withId tid) =>
        Except.ok [HostCall.setResumeActionContinue tid signal]
    | VContKind.step | VContKind.stepWithSig _ =>
      if tgt.supportSingleStep then
        let signal := match act.kind with
          | VContKind.stepWithSig sig => some sig
          | _ => none
        match act.thread.map (fun thread => thread.tid) with
        | none | some SpecificIdKind.all =>
          -- "GDB client sent 'step' as default resume action"
          Except.error Err.packetUnexpected
        | some (SpecificIdKind.withId tid) =>
          Except.ok [HostCall.setResumeActionStep tid signal]
      else
        -- the explicit unguarded fall-through arm
        Except.error Err.packetUnexpected
    | VContKind.rangeStep start stop =>
      if tgt.supportRangeStep then
        match act.thread.map (fun thread => thread.tid) with
        | none | some SpecificIdKind.all =>
          -- "GDB client sent 'range step' as default resume action"
          Except.error Err.packetUnexpected
        | some (SpecificIdKind.withId tid) =>
          Except.ok [HostCall.setResumeActionRangeStep tid start stop]
      else
        Except.error Err.packetUnexpected
    | VContKind.stop => Except.error Err.packetUnexpected

/-- The action loop of `do_vcont_multi_thread` followed by the final
`ops.resume()`: returns the host-call trace together with the first
error, if any (an error aborts the loop, so `resume` is only reached
when every action installed cleanly). -/
def doVContMultiThreadGo (tgt : TargetCfg) : List (Option VContAction) → List HostCall × Option Err
  | [] => ([HostCall.resume], none)
  | a :: rest =>
    match processMTAction tgt a with
    | Except.error e => ([], some e)
    | Except.ok calls =>
      let r := doVContMultiThreadGo tgt rest
      (calls ++ r.1, r.2)

/-- Function `do_vcont_multi_thread` (`src/gdbstub_impl/ext/base.rs:520-606`):
`clear_resume_actions` first, then the action loop, then `resume`. -/
def doVContMultiThread (tgt : TargetCfg) (actions : List (Option VContAction)) :
    List HostCall × Option Err :=
  let r := doVContMultiThreadGo tgt actions
  (HostCall.clearResumeActions :: r.1, r.2)

/-- Whether a parsed action is a `Step`/`StepWithSig`/`RangeStep` whose
thread-id is absent or the `All` selector (the actions that must not be
used as defaults). -/
def isStepLikeDefault (a : Option VContAction) : Bool :=
  match a with
  | none => false
  | some act =>
    (match act.kind with
     | VContKind.step | VContKind.stepWithSig _ | VContKind.rangeStep _ _ => true
     | _ => false)
    && (match act.thread.map (fun thread => thread.tid) with
        | none | some SpecificIdKind.all => true
        | some (SpecificIdKind.withId _) => false)

/-- Whether a parsed action is a bare continue (`c`), i.e. kind
`Continue` — the only legal second action in
`do_vcont_single_thread`. -/
def isBareContinue (a : Option VContAction) : Bool :=
  match a with
  | some act => match act.kind with
    | VContKind.cont => true
    | _ => false
  | none => false

/-- Dispatch on the first action's kind in `do_vcont_single_thread`
(`src/gdbstub_impl/ext/base.rs:479-517`). -/
def dispatchSTFirst (tgt : TargetCfg) (first : VContAction) : List HostCall × Option Err :=
  match first.kind with
  | VContKind.cont => ([HostCall.resumeWithSig none], none)
  | VContKind.contWithSig sig => ([HostCall.resumeWithSig (some sig)], none)
  | VContKind.step | VContKind.stepWithSig _ =>
    if tgt.supportSingleStep then
      let signal := match first.kind with
        | VContKind.stepWithSig sig => some sig
        | _ => none
      ([HostCall.step signal], none)
    else
      ([], some Err.packetUnexpected)
  | VContKind.rangeStep start stop =>
    if tgt.supportRangeStep then
      ([HostCall.resumeRangeStep start stop], none)
    else
      ([], some Err.packetUnexpected)
  | VContKind.stop => ([], some Err.packetUnexpected)

/-- Function `do_vcont_single_thread` (`src/gdbstub_impl/ext/base.rs:444-518`):
take the first action (its absence or a parse failure is
`MalformedCommand`), validate that a second action — if present — is a
bare continue and that there is no third action (`PacketUnexpected`
otherwise), then dispatch on the first action's kind. -/
def doVContSingleThread (tgt : TargetCfg) (actions : List (Option VContAction)) :
    List HostCall × Option Err :=
  match actions with
  | [] => ([], some Err.malformedCommand)
  | none :: _ => ([], some Err.malformedCommand)
  | some first :: rest =>
    match rest with
    | [] => dispatchSTFirst tgt first
    | none :: _ => ([], some Err.malformedCommand)
    | some second :: rest2 =>
      if !(isBareContinue (some second)) || !rest2.isEmpty then
        ([], some Err.packetUnexpected)
      else
        dispatchSTFirst tgt first

/-- The effect of one host `read_addrs` call: a `len`-byte buffer
starting at `addr` filled from the target's memory `mem`. -/
def readAddrsBytes (mem : Nat → Nat) (addr len : Nat) : List Nat :=
  (List.range len).map (fun j => mem (addr + j))

/-- The chunking loop of the `Base::m` arm of `handle_base`
(`src/gdbstub_impl/ext/base.rs:227-255`): `i` is the running byte
offset, `n` the count of bytes still to read, `bufLen` the length of
the packet buffer `cmd.buf`.  Each iteration reads
`chunk_size = min n bufLen` bytes at `addr + i` into the buffer and
hex-encodes them into the response.  (When `bufLen = 0` the source
would loop forever; the packet buffer is never empty, and the
embedding returns the empty trace in that unreachable case to stay
total.) -/
def memReadGo (mem : Nat → Nat) (bufLen addr i n : Nat) : List HostCall × List OutTok :=
  if _hn : n = 0 then ([], [])
  else if _hc : min n bufLen = 0 then ([], [])
  else
    (HostCall.readAddrs (addr + i) (min n bufLen)
       :: (memReadGo mem bufLen addr (i + min n bufLen) (n - min n bufLen)).1,
     OutTok.hexBuf (readAddrsBytes mem (addr + i) (min n bufLen))
       :: (memReadGo mem bufLen addr (i + min n bufLen) (n - min n bufLen)).2)
termination_by n
decreasing_by all_goals (simp_wf; omega)

/-- The `Base::m(cmd)` arm of `handle_base`: host-call trace and
response tokens for a memory-read command with base address `addr` and
byte count `len = cmd.len`. -/
def handleMemRead (mem : Nat → Nat) (bufLen addr len : Nat) : List HostCall × List OutTok :=
  memReadGo mem bufLen addr 0 len

/-- ASCII whitespace, for `str::trim`.  (Rust trims by
`char::is_whitespace`, which on the ASCII target-description strings
involved is exactly these characters.) -/
def isWsChar (c : Char) : Bool :=
  c = ' ' || c = '\t' || c = '\n' || c = '\r'

/-- Rust `str::trim`: the string with leading and trailing whitespace
removed. -/
def trimChars (l : List Char) : List Char :=
  ((l.dropWhile isWsChar).reverse.dropWhile isWsChar).reverse

/-- Rust `xml.trim().as_bytes()` for the (ASCII) target-description
strings involved: each `Char` is one byte. -/
def xmlBytes (xml : String) : List Nat :=
  (trimChars xml.toList).map Char.toNat

/-- The byte-window served from the architecture's static XML by the
`Base::qXferFeaturesRead` arm (`src/gdbstub_impl/ext/base.rs:138-152`):
`start` and `end` clamped to the XML length, the window sliced (with
the `end.max(start)` guard of the source), then truncated to the
packet buffer length — the final `take` models
`let n = data.len().min(cmd.buf.len())` and the copy of `data[..n]`
into `cmd.buf`. -/
def xferWindow (xml : String) (offset length bufLen : Nat) : List Nat :=
  let xb := xmlBytes xml
  let xmlLen := xb.length
  let start := min xmlLen offset
  let stop := min xmlLen (offset + length)
  let data := (xb.drop start).take (max stop start - start)
  data.take (min data.length bufLen)

/-- The `Base::qXferFeaturesRead(cmd)` arm of `handle_base`
(`src/gdbstub_impl/ext/base.rs:134-168`).  The returned byte list
stands for `cmd.buf[..ret]` (so its length is the source's `ret`): for
the override path it is whatever the host's reader wrote; for the
static-XML path it is `xferWindow`.  The handler then answers `l` when
`ret == 0` and `m<bytes>` otherwise. -/
def qXferFeaturesReadToks (tgt : TargetCfg) (offset length bufLen : Nat) :
    Except Err (List OutTok) :=
  let ret : Except Err (List Nat) :=
    match tgt.tdXmlOverride with
    | some readOverride => Except.ok (readOverride offset length bufLen)
    | none =>
      match tgt.archXml with
      | some xml => Except.ok (xferWindow xml offset length bufLen)
      | none =>
        -- without an XML the feature was never advertised, so the packet
        -- is unexpected
        Except.error Err.packetUnexpected
  match ret with
  | Except.error e => Except.error e
  | Except.ok bytes =>
    if bytes.length = 0 then Except.ok [OutTok.str "l"]
    else Except.ok [OutTok.str "m", OutTok.bin bytes]

/-- Type `WatchKind` from `src/target/ext/breakpoints`. -/
inductive WatchKind where
  | write : WatchKind
  | read : WatchKind
  | readWrite : WatchKind
deriving DecidableEq, Repr

/-- Type `ReplayLogPosition` (`Begin`/`End` renamed to avoid the Lean
keyword). -/
inductive ReplayLogPosition where
  | rlBegin : ReplayLogPosition
  | rlEnd : ReplayLogPosition
deriving DecidableEq, Repr

/-- Type `CatchSyscallPosition` from `src/target/ext/catch_syscalls`. -/
inductive CatchSyscallPosition where
  | entry : CatchSyscallPosition
  | ret : CatchSyscallPosition
deriving DecidableEq, Repr

/-- Type `ThreadStopReason` from `src/target/ext/base/multithread`. -/
inductive ThreadStopReason where
  | doneStep : ThreadStopReason
  | signal (sig : Nat) : ThreadStopReason
  | exited (code : Nat) : ThreadStopReason
  | terminated (sig : Nat) : ThreadStopReason
  | swBreak (tid : Nat) : ThreadStopReason
  | hwBreak (tid : Nat) : ThreadStopReason
  | watch (tid : Nat) (kind : WatchKind) (addr : Nat) : ThreadStopReason
  | replayLog (pos : ReplayLogPosition) : ThreadStopReason
  | catchSyscall (number : Nat) (position : CatchSyscallPosition) : ThreadStopReason
deriving DecidableEq, Repr

/-- Function `write_break_common` (`src/gdbstub_impl/ext/base.rs:621-639`): sets
`current_mem_tid` and `current_resume_tid` to the reported thread and
writes the common `T05thread:<tid>;` form. -/
def writeBreakCommon (st : GdbState) (tid : Nat) : GdbState × List OutTok :=
  ({ st with currentMemTid := tid, currentResumeTid := SpecificIdKind.withId tid },
   [OutTok.str "T05", OutTok.str "thread:",
    OutTok.threadId ⟨some (SpecificIdKind.withId FAKE_PID), SpecificIdKind.withId tid⟩,
    OutTok.str ";"])

/-- Function `finish_exec` (`src/gdbstub_impl/ext/base.rs:641-768`): maps a stop
reason to the wire tokens, the updated engine state, and the resulting
status; stop reasons whose capability guard fails produce the fatal
`UnsupportedStopReason` error (and, the result being an error, no stop
packet). -/
def finishExec (st : GdbState) (tgt : TargetCfg) (stopReason : ThreadStopReason) :
    Except Err (GdbState × List OutTok × FinishExecStatus) :=
  match stopReason with
  | ThreadStopReason.doneStep =>
    Except.ok (st, [OutTok.str "S05"], FinishExecStatus.handled)
  | ThreadStopReason.signal sig =>
    Except.ok (st, [OutTok.str "S", OutTok.num sig], FinishExecStatus.handled)
  | ThreadStopReason.exited code =>
    Except.ok (st, [OutTok.str "W", OutTok.num code],
      FinishExecStatus.disconnect (DisconnectReason.targetExited code))
  | ThreadStopReason.terminated sig =>
    Except.ok (st, [OutTok.str "X", OutTok.num sig],
      FinishExecStatus.disconnect (DisconnectReason.targetTerminated sig))
  | ThreadStopReason.swBreak tid =>
    if bpCap tgt (fun b => b.swBreakpoint) then
      let r := writeBreakCommon st tid
      Except.ok (r.1, r.2 ++ [OutTok.str "swbreak:;"], FinishExecStatus.handled)
    else Except.error Err.unsupportedStopReason
  | ThreadStopReason.hwBreak tid =>
    if bpCap tgt (fun b => b.hwBreakpoint) then
      let r := writeBreakCommon st tid
      Except.ok (r.1, r.2 ++ [OutTok.str "hwbreak:;"], FinishExecStatus.handled)
    else Except.error Err.unsupportedStopReason
  | ThreadStopReason.watch tid kind addr =>
    if bpCap tgt (fun b => b.hwWatchpoint) then
      let r := writeBreakCommon st tid
      Except.ok (r.1,
        r.2 ++ [(match kind with
                 | WatchKind.write => OutTok.str "watch:"
                 | WatchKind.read => OutTok.str "rwatch:"
                 | WatchKind.readWrite => OutTok.str "awatch:"),
                OutTok.num addr, OutTok.str ";"],
        FinishExecStatus.handled)
    else Except.error Err.unsupportedStopReason
  | ThreadStopReason.replayLog pos =>
    if tgt.supportReverseCont || tgt.supportReverseStep then
      Except.ok (st,
        [OutTok.str "T05", OutTok.str "replaylog:",
         OutTok.str (match pos with
                     | ReplayLogPosition.rlBegin => "begin"
                     | ReplayLogPosition.rlEnd => "end"),
         OutTok.str ";"],
        FinishExecStatus.handled)
    else Except.error Err.unsupportedStopReason
  | ThreadStopReason.catchSyscall number position =>
    if tgt.catchSyscalls then
      Except.ok (st,
        [OutTok.str "T05",
         OutTok.str (match position with
                     | CatchSyscallPosition.entry => "syscall_entry:"
                     | CatchSyscallPosition.ret => "syscall_return:"),
         OutTok.num number, OutTok.str ";"],
        FinishExecStatus.handled)
    else Except.error Err.unsupportedStopReason

/-- Type `Op` from `src/protocol/commands/_h_upcase`: the `H` packet's
operation selector (`Hg` is `Other`, `Hc` is `StepContinue`). -/
inductive HOp where
  | other : HOp
  | stepContinue : HOp
deriving DecidableEq, Repr

/-- The `first_tid` accumulation of `get_sane_any_tid`
(`src/gdbstub_impl/ext/base.rs:16-21`): the callback keeps the first
tid `list_active_threads` reports. -/
def firstTid (reported : List Nat) : Option Nat :=
  reported.foldl (fun acc tid => if acc.isNone then some tid else acc) none

/-- Function `get_sane_any_tid` (`src/gdbstub_impl/ext/base.rs:12-33`):
`SINGLE_THREAD_TID` for single-thread targets, the first reported
active thread for multi-thread targets, `NoActiveThreads` when a
multi-thread target reports none. -/
def get_sane_any_tid (tgt : TargetCfg) : Except Err Nat :=
  if tgt.multiThread then
    match firstTid tgt.activeThreads with
    | some tid => Except.ok tid
    | none => Except.error Err.noActiveThreads
  else Except.ok SINGLE_THREAD_TID

/-- The `Base::H(cmd)` arm of `handle_base`
(`src/gdbstub_impl/ext/base.rs:358-380`).  `Hg` (`Other`) assigns
`current_mem_tid`: `Any` resolves through `get_sane_any_tid`, `All` is
a protocol error (the handler aborts before any assignment, so the
engine keeps its state), a concrete id is stored as-is.  `Hc`
(`StepContinue`) assigns `current_resume_tid`, for which `All` is
legal.  Both return `NeedsOk` on success. -/
def handleH (st : GdbState) (tgt : TargetCfg) (kind : HOp) (thread : ThreadId) :
    Except Err (GdbState × HandlerStatus) :=
  match kind with
  | HOp.other =>
    match thread.tid with
    | IdKind.any =>
      match get_sane_any_tid tgt with
      | Except.error e => Except.error e
      | Except.ok tid =>
        Except.ok ({ st with currentMemTid := tid }, HandlerStatus.needsOk)
    | IdKind.all => Except.error Err.packetUnexpected
    | IdKind.withId tid =>
      Except.ok ({ st with currentMemTid := tid }, HandlerStatus.needsOk)
  | HOp.stepContinue =>
    match thread.tid with
    | IdKind.any =>
      match get_sane_any_tid tgt with
      | Except.error e => Except.error e
      | Except.ok tid =>
        Except.ok ({ st with currentResumeTid := SpecificIdKind.withId tid },
          HandlerStatus.needsOk)
    | IdKind.all =>
      Except.ok ({ st with currentResumeTid := SpecificIdKind.all }, HandlerStatus.needsOk)
    | IdKind.withId tid =>
      Except.ok ({ st with currentResumeTid := SpecificIdKind.withId tid },
        HandlerStatus.needsOk)

/-- Function `handle_register_info` (`src/stub/core_impl/register_info.rs:5-31`):
no capability means return `Handled` with nothing written; otherwise
`get_register_info(n)` is `Some(info)` (write `info`, `Handled`) or
`None` (`NeedsOk`, so the framework appends `OK`). -/
def handleRegisterInfo (tgt : TargetCfg) (n : Nat) : List OutTok × HandlerStatus :=
  match tgt.registerInfo with
  | none => ([], HandlerStatus.handled)
  | some get =>
    match get n with
    | some info => ([OutTok.str info], HandlerStatus.handled)
    | none => ([], HandlerStatus.needsOk)

/-- A host exposing no optional capability at all; the concrete
configurations below override individual fields. -/
def minimalCfg : TargetCfg :=
  { multiThread := false, activeThreads := [], supportSingleStep := false,
    supportRangeStep := false, supportReverseCont := false,
    supportReverseStep := false, extendedMode := none, breakpoints := none,
    catchSyscalls := false, tdXmlOverride := none, archXml := none,
    memoryMap := false, execFile := false, auxv := false, registerInfo := none }

/-- A single-thread host whose architecture exposes the one-byte static
XML `"x"` and that does not override the target description. -/
def xmlCfg : TargetCfg := { minimalCfg with archXml := some "x" }

/-- A host supporting hardware watchpoints but neither software nor
hardware breakpoints. -/
def watchOnlyCfg : TargetCfg :=
  { minimalCfg with breakpoints := some ⟨false, false, true⟩ }

/-- A host supporting hardware breakpoints. -/
def hwBpCfg : TargetCfg :=
  { minimalCfg with breakpoints := some ⟨false, true, false⟩ }

/-- A host supporting software breakpoints. -/
def swBpCfg : TargetCfg :=
  { minimalCfg with breakpoints := some ⟨true, false, false⟩ }

/-- A single-thread host with the single-step capability. -/
def stepCfg : TargetCfg := { minimalCfg with supportSingleStep := true }

/-- A multi-thread host reporting active threads 7 and 8, with the
single-step capability. -/
def mtCfg : TargetCfg :=
  { minimalCfg with
      multiThread := true
      activeThreads := [7, 8]
      supportSingleStep := true }

/-- An arbitrary engine state for concrete evaluations. -/
def st0 : GdbState := ⟨1, SpecificIdKind.all⟩

/-- Whether a stop reason is one of the thread-bearing break reasons
(`SwBreak`, `HwBreak`, `Watch`) routed through `write_break_common`. -/
def isBreakLike (sr : ThreadStopReason) : Bool :=
  match sr with
  | ThreadStopReason.swBreak _ => true
  | ThreadStopReason.hwBreak _ => true
  | ThreadStopReason.watch _ _ _ => true
  | _ => false

/-- A host exposing the register-info capability, with info for
register 0 only. -/
def regInfoCfg : TargetCfg :=
  { minimalCfg with registerInfo := some (fun k => if k = 0 then some "r0" else none) }

theorem mem_optTok {t x : OutTok} {c : Bool} :
    x ∈ optTok c t ↔ (c ∧ x = t) := by
  cases c <;> simp [optTok]

/-- Claim C1: The `qSupported` response begins with
`PacketSize=<buffer_size>;vContSupported+;multiprocess+;QStartNoAckMode+`
(with `PacketSize` the stub's packet buffer length), and each
conditional feature string is appended if and only if the corresponding
host capability is present (`hwbreak+` standing for hardware breakpoint
or watchpoint support; `qXfer:features:read+` for the
target-description override or the architecture's static XML). -/
theorem qSupported_response_spec (tgt : TargetCfg) (n : Nat) :
    (∃ rest, qSupportedToks tgt n =
      [OutTok.str "PacketSize=", OutTok.num n, OutTok.str ";vContSupported+",
       OutTok.str ";multiprocess+", OutTok.str ";QStartNoAckMode+"] ++ rest)
    ∧ (OutTok.str ";ReverseContinue+" ∈ qSupportedToks tgt n ↔ tgt.supportReverseCont)
    ∧ (OutTok.str ";ReverseStep+" ∈ qSupportedToks tgt n ↔ tgt.supportReverseStep)
    ∧ (OutTok.str ";QDisableRandomization+" ∈ qSupportedToks tgt n
        ↔ extCap tgt (fun e => e.configureAslr))
    ∧ (OutTok.str ";QEnvironmentHexEncoded+" ∈ qSupportedToks tgt n
        ↔ extCap tgt (fun e => e.configureEnv))
    ∧ (OutTok.str ";QEnvironmentUnset+" ∈ qSupportedToks tgt n
        ↔ extCap tgt (fun e => e.configureEnv))
    ∧ (OutTok.str ";QEnvironmentReset+" ∈ qSupportedToks tgt n
        ↔ extCap tgt (fun e => e.configureEnv))
    ∧ (OutTok.str ";QStartupWithShell+" ∈ qSupportedToks tgt n
        ↔ extCap tgt (fun e => e.configureStartupShell))
    ∧ (OutTok.str ";QSetWorkingDir+" ∈ qSupportedToks tgt n
        ↔ extCap tgt (fun e => e.configureWorkingDir))
    ∧ (OutTok.str ";swbreak+" ∈ qSupportedToks tgt n
        ↔ bpCap tgt (fun b => b.swBreakpoint))
    ∧ (OutTok.str ";hwbreak+" ∈ qSupportedToks tgt n
        ↔ bpCap tgt (fun b => b.hwBreakpoint || b.hwWatchpoint))
    ∧ (OutTok.str ";QCatchSyscalls+" ∈ qSupportedToks tgt n ↔ tgt.catchSyscalls)
    ∧ (OutTok.str ";qXfer:features:read+" ∈ qSupportedToks tgt n
        ↔ (tgt.archXml.isSome || tgt.tdXmlOverride.isSome))
    ∧ (OutTok.str ";qXfer:memory-map:read+" ∈ qSupportedToks tgt n ↔ tgt.memoryMap)
    ∧ (OutTok.str ";qXfer:exec-file:read+" ∈ qSupportedToks tgt n ↔ tgt.execFile)
    ∧ (OutTok.str ";qXfer:auxv:read+" ∈ qSupportedToks tgt n ↔ tgt.auxv) := by
  refine ⟨⟨_, rfl⟩, ?_, ?_, ?_, ?_, ?_, ?_, ?_, ?_, ?_, ?_, ?_, ?_, ?_, ?_, ?_⟩ <;>
  · simp only [qSupportedToks, extCap, bpCap]
    rcases tgt.breakpoints with _ | bp <;> rcases tgt.extendedMode with _ | ext <;>
      simp [mem_optTok]

theorem processMTAction_no_resume {tgt : TargetCfg} {a : Option VContAction}
    {calls : List HostCall} (h : processMTAction tgt a = Except.ok calls) :
    HostCall.resume ∉ calls := by
  cases a with
  | none => simp [processMTAction] at h
  | some act =>
    obtain ⟨kind, thread⟩ := act
    cases kind <;> simp only [processMTAction] at h
    all_goals repeat' split at h
    all_goals try simp only [Except.ok.injEq] at h
    all_goals try subst h
    all_goals simp_all

theorem isStepLikeDefault_err (tgt : TargetCfg) {a : Option VContAction}
    (h : isStepLikeDefault a) : ∃ e, processMTAction tgt a = Except.error e := by
  cases a with
  | none => simp [isStepLikeDefault] at h
  | some act =>
    obtain ⟨kind, thread⟩ := act
    cases kind <;> simp only [isStepLikeDefault, Bool.and_eq_true] at h <;>
      simp only [processMTAction] <;>
      (repeat' split) <;> simp_all

theorem doVContMultiThreadGo_err_no_resume {tgt : TargetCfg}
    {l : List (Option VContAction)} (h : (doVContMultiThreadGo tgt l).2.isSome) :
    HostCall.resume ∉ (doVContMultiThreadGo tgt l).1 := by
  induction l with
  | nil => simp [doVContMultiThreadGo] at h
  | cons a rest ih =>
    simp only [doVContMultiThreadGo] at h ⊢
    cases hp : processMTAction tgt a with
    | error e => simp [hp]
    | ok calls =>
      simp only [hp] at h ⊢
      rw [List.mem_append]
      push_neg
      exact ⟨processMTAction_no_resume hp, ih h⟩

theorem doVContMultiThreadGo_default_err (tgt : TargetCfg)
    {l : List (Option VContAction)} (h : ∃ a ∈ l, isStepLikeDefault a) :
    (doVContMultiThreadGo tgt l).2.isSome := by
  induction l with
  | nil => simp at h
  | cons a rest ih =>
    simp only [doVContMultiThreadGo]
    rcases h with ⟨w, hw, hdef⟩
    rcases List.mem_cons.mp hw with rfl | hw
    · obtain ⟨e, he⟩ := isStepLikeDefault_err tgt hdef
      simp [he]
    · cases hp : processMTAction tgt a with
      | error e => simp
      | ok calls => simpa using ih ⟨w, hw, hdef⟩

theorem doVContMultiThreadGo_ok (tgt : TargetCfg)
    {l : List (Option VContAction)} (h : (doVContMultiThreadGo tgt l).2 = none) :
    (doVContMultiThreadGo tgt l).1.getLast? = some HostCall.resume
    ∧ (doVContMultiThreadGo tgt l).1.count HostCall.resume = 1 := by
  induction l with
  | nil => simp [doVContMultiThreadGo]
  | cons a rest ih =>
    simp only [doVContMultiThreadGo] at h ⊢
    cases hp : processMTAction tgt a with
    | error e => simp [hp] at h
    | ok calls =>
      simp only [hp] at h ⊢
      obtain ⟨hlast, hcount⟩ := ih h
      constructor
      · rw [List.getLast?_append, hlast]; rfl
      · rw [List.count_append, hcount,
          List.count_eq_zero.mpr (processMTAction_no_resume hp)]

/-- Claim C3: For a multi-thread target handling `vCont` actions,
`clear_resume_actions` is the first host call; any `Step` or
`RangeStep` action whose thread-id is absent or the `All` selector
makes the handler fail with a protocol error without ever invoking the
target's `resume()` (and, failing, it writes no response packet — these
handlers write no response tokens at all); and when every action
installs without error, `resume()` is called exactly once, as the last
host call, after all actions are installed. -/
theorem vcont_multi_thread_spec (tgt : TargetCfg) (actions : List (Option VContAction)) :
    (doVContMultiThread tgt actions).1.head? = some HostCall.clearResumeActions
    ∧ ((∃ a ∈ actions, isStepLikeDefault a) →
        (doVContMultiThread tgt actions).2.isSome
        ∧ HostCall.resume ∉ (doVContMultiThread tgt actions).1)
    ∧ ((doVContMultiThread tgt actions).2 = none →
        (doVContMultiThread tgt actions).1.getLast? = some HostCall.resume
        ∧ (doVContMultiThread tgt actions).1.count HostCall.resume = 1) := by
  refine ⟨rfl, ?_, ?_⟩
  · intro hex
    have herr := doVContMultiThreadGo_default_err tgt hex
    refine ⟨herr, ?_⟩
    have hnr := doVContMultiThreadGo_err_no_resume herr
    simp [doVContMultiThread, hnr]
  · intro hok
    obtain ⟨hlast, hcount⟩ := doVContMultiThreadGo_ok tgt hok
    constructor
    · show (HostCall.clearResumeActions :: (doVContMultiThreadGo tgt actions).1).getLast? = _
      rw [show (HostCall.clearResumeActions :: (doVContMultiThreadGo tgt actions).1)
            = [HostCall.clearResumeActions] ++ (doVContMultiThreadGo tgt actions).1 from rfl,
          List.getLast?_append, hlast]
      rfl
    · show (HostCall.clearResumeActions
          :: (doVContMultiThreadGo tgt actions).1).count HostCall.resume = 1
      rw [List.count_cons]
      simp [hcount]

/-- Claim C4: For a single-thread target handling a `vCont` action list:
a list whose second action is anything other than a bare continue `c`,
or that contains three or more actions, is a protocol error (and no
host operation is invoked); otherwise the first action's kind selects
the host operation — `Continue`/`ContinueWithSig` call `resume`,
`Step`/`StepWithSig` call `step` when the single-step capability
exists, `RangeStep` calls `resume_range_step` when the range-step
capability exists, and `Stop` is a protocol error. -/
theorem vcont_single_thread_spec (tgt : TargetCfg) (acts : List (Option VContAction)) :
    ((∃ first? second? rest, acts = first? :: second? :: rest ∧
        (¬isBareContinue second? ∨ rest ≠ [])) →
      (doVContSingleThread tgt acts).2.isSome ∧ (doVContSingleThread tgt acts).1 = [])
    ∧ (∀ first, (acts = [some first] ∨
        (∃ second, acts = [some first, some second] ∧ second.kind = VContKind.cont)) →
        ((first.kind = VContKind.cont →
            doVContSingleThread tgt acts = ([HostCall.resumeWithSig none], none))
         ∧ (∀ sig, first.kind = VContKind.contWithSig sig →
            doVContSingleThread tgt acts = ([HostCall.resumeWithSig (some sig)], none))
         ∧ (tgt.supportSingleStep → first.kind = VContKind.step →
            doVContSingleThread tgt acts = ([HostCall.step none], none))
         ∧ (∀ sig, tgt.supportSingleStep → first.kind = VContKind.stepWithSig sig →
            doVContSingleThread tgt acts = ([HostCall.step (some sig)], none))
         ∧ (∀ start stop, tgt.supportRangeStep → first.kind = VContKind.rangeStep start stop →
            doVContSingleThread tgt acts = ([HostCall.resumeRangeStep start stop], none))
         ∧ (first.kind = VContKind.stop →
            doVContSingleThread tgt acts = ([], some Err.packetUnexpected)))) := by
  constructor
  · rintro ⟨first?, second?, rest, rfl, hbad⟩
    cases first? with
    | none => simp [doVContSingleThread]
    | some first =>
      cases second? with
      | none => simp [doVContSingleThread]
      | some second =>
        have hcond : (!(isBareContinue (some second)) || !rest.isEmpty) = true := by
          rcases hbad with hb | hr
          · simp only [Bool.or_eq_true, Bool.not_eq_true']
            left
            simpa using hb
          · simp only [Bool.or_eq_true, Bool.not_eq_true']
            right
            simpa [List.isEmpty_iff] using hr
        simp [doVContSingleThread, hcond]
  · intro first hvalid
    have hred : doVContSingleThread tgt acts = dispatchSTFirst tgt first := by
      rcases hvalid with rfl | ⟨second, rfl, hsec⟩
      · rfl
      · simp [doVContSingleThread, isBareContinue, hsec]
    rw [hred]
    refine ⟨?_, ?_, ?_, ?_, ?_, ?_⟩
    · intro hk; simp [dispatchSTFirst, hk]
    · intro sig hk; simp [dispatchSTFirst, hk]
    · intro hs hk; simp [dispatchSTFirst, hk, hs]
    · intro sig hs hk; simp [dispatchSTFirst, hk, hs]
    · intro a b hs hk; simp [dispatchSTFirst, hk, hs]
    · intro hk; simp [dispatchSTFirst, hk]

theorem memReadGo_eq (mem : Nat → Nat) {bufLen : Nat} (hb : 0 < bufLen) (addr : Nat) :
    ∀ n i, memReadGo mem bufLen addr i n =
      ((List.range ((n + bufLen - 1) / bufLen)).map
          (fun k => HostCall.readAddrs (addr + i + k * bufLen) (min bufLen (n - k * bufLen))),
       (List.range ((n + bufLen - 1) / bufLen)).map
          (fun k => OutTok.hexBuf
            (readAddrsBytes mem (addr + i + k * bufLen) (min bufLen (n - k * bufLen))))) := by
  intro n
  induction n using Nat.strong_induction_on with
  | _ n ih =>
    intro i
    by_cases hn : n = 0
    · subst hn
      have hN : (0 + bufLen - 1) / bufLen = 0 := Nat.div_eq_of_lt (by omega)
      rw [memReadGo, hN]
      simp
    · have hchunk : min n bufLen ≠ 0 := by omega
      rw [memReadGo, dif_neg hn, dif_neg hchunk]
      by_cases hle : n ≤ bufLen
      · -- single chunk: the recursive call bottoms out
        have hc : min n bufLen = n := Nat.min_eq_left hle
        have hN : (n + bufLen - 1) / bufLen = 1 := by
          apply Nat.div_eq_of_lt_le <;> omega
        rw [hc]
        have hrec : memReadGo mem bufLen addr (i + n) (n - n) = ([], []) := by
          rw [Nat.sub_self]
          simp [memReadGo]
        rw [hrec, hN]
        have hr1 : List.range 1 = [0] := rfl
        rw [hr1]
        simp only [List.map_cons, List.map_nil, Prod.mk.injEq]
        have e1 : addr + i + 0 * bufLen = addr + i := by omega
        have e2 : bufLen ⊓ (n - 0 * bufLen) = n := by omega
        rw [e1, e2]
        simp
      · push_neg at hle
        have hc : min n bufLen = bufLen := Nat.min_eq_right (by omega)
        have hN : (n + bufLen - 1) / bufLen = ((n - bufLen) + bufLen - 1) / bufLen + 1 := by
          have h1 : n + bufLen - 1 = ((n - bufLen) + bufLen - 1) + bufLen := by omega
          rw [h1, Nat.add_div_right _ hb]
        rw [hc, ih (n - bufLen) (by omega) (i + bufLen), hN, List.range_succ_eq_map]
        simp only [List.map_cons, List.map_map, Prod.mk.injEq]
        have e1 : addr + i + 0 * bufLen = addr + i := by omega
        have e2 : bufLen ⊓ (n - 0 * bufLen) = bufLen := by omega
        rw [e1, e2]
        have harith : ∀ k : Nat,
            addr + (i + bufLen) + k * bufLen = addr + i + Nat.succ k * bufLen
            ∧ n - bufLen - k * bufLen = n - Nat.succ k * bufLen := by
          intro k
          rw [Nat.succ_mul]
          constructor <;> (generalize k * bufLen = kb; omega)
        constructor
        · congr 1
          apply List.map_congr_left
          intro k _
          simp only [Function.comp_apply]
          rw [(harith k).1, (harith k).2]
        · congr 1
          apply List.map_congr_left
          intro k _
          simp only [Function.comp_apply]
          rw [(harith k).1, (harith k).2]



theorem chunksJoin (mem : Nat → Nat) {bufLen : Nat} (hb : 0 < bufLen) :
    ∀ n a, ((List.range ((n + bufLen - 1) / bufLen)).map
        (fun k => readAddrsBytes mem (a + k * bufLen) (min bufLen (n - k * bufLen)))).flatten
      = readAddrsBytes mem a n := by
  intro n
  induction n using Nat.strong_induction_on with
  | _ n ih =>
    intro a
    by_cases hn : n = 0
    · subst hn
      have hN : (0 + bufLen - 1) / bufLen = 0 := Nat.div_eq_of_lt (by omega)
      rw [hN]
      simp [readAddrsBytes]
    · by_cases hle : n ≤ bufLen
      · have hN : (n + bufLen - 1) / bufLen = 1 := by
          apply Nat.div_eq_of_lt_le <;> omega
        rw [hN]
        have hr1 : List.range 1 = [0] := rfl
        rw [hr1]
        simp only [List.map_cons, List.map_nil, List.flatten_cons, List.flatten_nil]
        have e2 : bufLen ⊓ (n - 0 * bufLen) = n := by omega
        have e1 : a + 0 * bufLen = a := by omega
        rw [e1, e2]
        simp
      · push_neg at hle
        have hN : (n + bufLen - 1) / bufLen = ((n - bufLen) + bufLen - 1) / bufLen + 1 := by
          have h1 : n + bufLen - 1 = ((n - bufLen) + bufLen - 1) + bufLen := by omega
          rw [h1, Nat.add_div_right _ hb]
        rw [hN, List.range_succ_eq_map]
        simp only [List.map_cons, List.map_map, List.flatten_cons]
        have e1 : a + 0 * bufLen = a := by omega
        have e2 : bufLen ⊓ (n - 0 * bufLen) = bufLen := by omega
        rw [e1, e2]
        have hrw : List.map ((fun k => readAddrsBytes mem (a + k * bufLen)
              (min bufLen (n - k * bufLen))) ∘ Nat.succ) (List.range ((n - bufLen + bufLen - 1) / bufLen))
            = List.map (fun k => readAddrsBytes mem ((a + bufLen) + k * bufLen)
              (min bufLen ((n - bufLen) - k * bufLen))) (List.range ((n - bufLen + bufLen - 1) / bufLen)) := by
          apply List.map_congr_left
          intro k _
          simp only [Function.comp_apply]
          have h1 : a + Nat.succ k * bufLen = (a + bufLen) + k * bufLen := by
            rw [Nat.succ_mul]
            generalize k * bufLen = kb
            omega
          have h2 : n - Nat.succ k * bufLen = (n - bufLen) - k * bufLen := by
            rw [Nat.succ_mul]
            generalize k * bufLen = kb
            omega
          rw [h1, h2]
        rw [hrw, ih (n - bufLen) (by omega) (a + bufLen)]
        -- readAddrsBytes splits across the first chunk
        have hsplit : readAddrsBytes mem a n
            = readAddrsBytes mem a bufLen ++ readAddrsBytes mem (a + bufLen) (n - bufLen) := by
          simp only [readAddrsBytes]
          rw [show List.range n = List.range (bufLen + (n - bufLen)) from by congr 1; omega]
          rw [List.range_add, List.map_append, List.map_map]
          congr 1
          apply List.map_congr_left
          intro x _
          simp only [Function.comp_apply]
          congr 1
          omega
        rw [hsplit]

/-- Claim C5: For a memory-read command with `len > 0` and a non-empty
packet buffer, the dispatcher splits the read into
`ceil(len / buffer_size)` chunks, issuing one `read_addrs` call per
chunk at base `addr + k * buffer_size` for chunk `k`, each chunk of
size `min buffer_size (len - k * buffer_size)` (hence at most
buffer-sized); the response tokens are the chunks' bytes hex-encoded
in order, and those chunks concatenate to the full `len`-byte read at
`addr`. -/
theorem mem_read_chunking_spec (mem : Nat → Nat) (bufLen addr len : Nat)
    (hb : 0 < bufLen) (_hl : 0 < len) :
    (handleMemRead mem bufLen addr len).1 =
      (List.range ((len + bufLen - 1) / bufLen)).map
        (fun k => HostCall.readAddrs (addr + k * bufLen) (min bufLen (len - k * bufLen)))
    ∧ (handleMemRead mem bufLen addr len).2 =
      (List.range ((len + bufLen - 1) / bufLen)).map
        (fun k => OutTok.hexBuf
          (readAddrsBytes mem (addr + k * bufLen) (min bufLen (len - k * bufLen))))
    ∧ ((List.range ((len + bufLen - 1) / bufLen)).map
        (fun k => readAddrsBytes mem (addr + k * bufLen) (min bufLen (len - k * bufLen)))).flatten
      = readAddrsBytes mem addr len := by
  have h := memReadGo_eq mem hb addr len 0
  simp only [Nat.add_zero] at h
  exact ⟨by rw [handleMemRead, h], by rw [handleMemRead, h], chunksJoin mem hb len addr⟩

theorem mem_qSupported_swbreak (tgt : TargetCfg) (n : Nat) :
    (OutTok.str ";swbreak+" ∈ qSupportedToks tgt n) ↔ bpCap tgt (fun b => b.swBreakpoint) := by
  simp only [qSupportedToks, bpCap]
  rcases tgt.breakpoints with _ | bp <;> rcases tgt.extendedMode with _ | ext <;>
    simp [mem_optTok]

theorem mem_qSupported_hwbreak (tgt : TargetCfg) (n : Nat) :
    (OutTok.str ";hwbreak+" ∈ qSupportedToks tgt n)
      ↔ bpCap tgt (fun b => b.hwBreakpoint || b.hwWatchpoint) := by
  simp only [qSupportedToks, bpCap]
  rcases tgt.breakpoints with _ | bp <;> rcases tgt.extendedMode with _ | ext <;>
    simp [mem_optTok]

/-- Claim C2, amended: On the static-XML path (no host override), the
handler answers bare `l` when the served byte-window is empty, and
`m<bytes>` whenever it is non-empty — including when the window reaches
the end of the XML. -/
theorem qxfer_features_read_static_xml_spec (tgt : TargetCfg) (xml : String)
    (offset length bufLen : Nat)
    (hov : tgt.tdXmlOverride = none) (hxml : tgt.archXml = some xml) :
    (xferWindow xml offset length bufLen = [] →
      qXferFeaturesReadToks tgt offset length bufLen = Except.ok [OutTok.str "l"])
    ∧ (xferWindow xml offset length bufLen ≠ [] →
      qXferFeaturesReadToks tgt offset length bufLen =
        Except.ok [OutTok.str "m", OutTok.bin (xferWindow xml offset length bufLen)]) := by
  simp only [qXferFeaturesReadToks, hov, hxml]
  constructor
  · intro h
    simp [h]
  · intro h
    rw [if_neg (by simpa [List.length_eq_zero] using h)]

theorem qxfer_features_read_static_xml_witness :
    qXferFeaturesReadToks xmlCfg 0 1 16 =
      Except.ok [OutTok.str "m", OutTok.bin (xferWindow "x" 0 1 16)] :=
  (qxfer_features_read_static_xml_spec xmlCfg "x" 0 1 16 rfl rfl).2 (by decide)

/-- Claim C2, counterexample: Request `offset = 0`, `length = 1` against
the one-byte static XML `"x"`: the window reaches the end of the XML
and is non-empty, yet the response marker is `m`, not the `l<bytes>`
form the claim predicts for an end-reaching window. -/
theorem qxfer_features_read_end_window_counterexample :
    qXferFeaturesReadToks xmlCfg 0 1 16 = Except.ok [OutTok.str "m", OutTok.bin [120]]
    ∧ (xmlBytes "x").length ≤ 0 + 1
    ∧ OutTok.str "m" ≠ OutTok.str "l" :=
  ⟨rfl, by decide, by decide⟩

/-- Claim C6: A stop reason whose capability gate fails (`SwBreak`
without software breakpoints, `HwBreak` without hardware breakpoints,
`Watch` without hardware watchpoints, `ReplayLog` without reverse
continue or reverse step, `CatchSyscall` without the catch-syscalls
extension) makes `finish_exec` fail with the fatal
`UnsupportedStopReason`; the result being an error, no stop packet is
produced. -/
theorem finish_exec_unsupported_stop_reason_spec (st : GdbState) (tgt : TargetCfg) :
    (∀ tid, ¬ bpCap tgt (fun b => b.swBreakpoint) →
      finishExec st tgt (ThreadStopReason.swBreak tid) =
        Except.error Err.unsupportedStopReason)
    ∧ (∀ tid, ¬ bpCap tgt (fun b => b.hwBreakpoint) →
      finishExec st tgt (ThreadStopReason.hwBreak tid) =
        Except.error Err.unsupportedStopReason)
    ∧ (∀ tid kind addr, ¬ bpCap tgt (fun b => b.hwWatchpoint) →
      finishExec st tgt (ThreadStopReason.watch tid kind addr) =
        Except.error Err.unsupportedStopReason)
    ∧ (∀ pos, ¬ (tgt.supportReverseCont ∨ tgt.supportReverseStep) →
      finishExec st tgt (ThreadStopReason.replayLog pos) =
        Except.error Err.unsupportedStopReason)
    ∧ (∀ number pos, ¬ tgt.catchSyscalls →
      finishExec st tgt (ThreadStopReason.catchSyscall number pos) =
        Except.error Err.unsupportedStopReason) := by
  refine ⟨?_, ?_, ?_, ?_, ?_⟩ <;> intros <;> simp_all [finishExec]

theorem finish_exec_unsupported_stop_reason_witness :
    finishExec st0 minimalCfg (ThreadStopReason.hwBreak 1) =
      Except.error Err.unsupportedStopReason :=
  (finish_exec_unsupported_stop_reason_spec st0 minimalCfg).2.1 1 (by decide)

theorem foldl_firstTid_some (x : Nat) :
    ∀ l : List Nat,
      List.foldl (fun acc tid => if acc.isNone then some tid else acc) (some x) l = some x := by
  intro l
  induction l with
  | nil => rfl
  | cons a l ih => simpa using ih

theorem firstTid_eq_head? (l : List Nat) : firstTid l = l.head? := by
  cases l with
  | nil => rfl
  | cons t ts => simpa [firstTid] using foldl_firstTid_some t ts

/-- Claim C7: `current_mem_tid` is a concrete tid by type (`Tid` in the
source, `Nat` here) — the `All` selector is not representable in it, so
no operation can assign `All`.  The `Hg` handler maintains this: an
`Hg` naming `All` is a protocol error (the handler aborts before any
assignment, so the engine keeps its state); `Hg` naming `Any` stores
`SINGLE_THREAD_TID` for a single-thread target and the first thread
reported by `list_active_threads` for a multi-thread one, failing with
`NoActiveThreads` when a multi-thread target reports no threads; an
`Hc` naming `All` touches only `current_resume_tid`. -/
theorem h_packet_mem_tid_spec (st : GdbState) (tgt : TargetCfg) (pid : Option IdKind) :
    (handleH st tgt HOp.other ⟨pid, IdKind.all⟩ = Except.error Err.packetUnexpected)
    ∧ (¬ tgt.multiThread →
        handleH st tgt HOp.other ⟨pid, IdKind.any⟩ =
          Except.ok ({ st with currentMemTid := SINGLE_THREAD_TID }, HandlerStatus.needsOk))
    ∧ (tgt.multiThread → ∀ t ts, tgt.activeThreads = t :: ts →
        handleH st tgt HOp.other ⟨pid, IdKind.any⟩ =
          Except.ok ({ st with currentMemTid := t }, HandlerStatus.needsOk))
    ∧ (tgt.multiThread → tgt.activeThreads = [] →
        handleH st tgt HOp.other ⟨pid, IdKind.any⟩ = Except.error Err.noActiveThreads)
    ∧ (handleH st tgt HOp.stepContinue ⟨pid, IdKind.all⟩ =
        Except.ok ({ st with currentResumeTid := SpecificIdKind.all },
          HandlerStatus.needsOk)) := by
  refine ⟨rfl, ?_, ?_, ?_, rfl⟩
  · intro h
    simp [handleH, get_sane_any_tid, h]
  · intro h t ts hl
    simp [handleH, get_sane_any_tid, h, firstTid_eq_head?, hl]
  · intro h hl
    simp [handleH, get_sane_any_tid, h, firstTid_eq_head?, hl]

theorem h_packet_mem_tid_witness :
    handleH st0 mtCfg HOp.other ⟨none, IdKind.any⟩ =
      Except.ok ({ st0 with currentMemTid := 7 }, HandlerStatus.needsOk) :=
  (h_packet_mem_tid_spec st0 mtCfg none).2.2.1 (by decide) 7 [8] rfl

/-- Claim C9: `qRegisterInfo<n>`: with the register-info capability,
`get_register_info(n) = Some(info)` writes `info` verbatim and
`None` yields `NeedsOk` (the framework appends `OK`); without the
capability the handler writes nothing and reports `Handled`, so the
client sees the empty response. -/
theorem register_info_spec (tgt : TargetCfg) (n : Nat) :
    (∀ get info, tgt.registerInfo = some get → get n = some info →
      handleRegisterInfo tgt n = ([OutTok.str info], HandlerStatus.handled))
    ∧ (∀ get, tgt.registerInfo = some get → get n = none →
      handleRegisterInfo tgt n = ([], HandlerStatus.needsOk))
    ∧ (tgt.registerInfo = none →
      handleRegisterInfo tgt n = ([], HandlerStatus.handled)) := by
  refine ⟨?_, ?_, ?_⟩ <;> intros <;> simp_all [handleRegisterInfo]

theorem register_info_witness :
    handleRegisterInfo regInfoCfg 0 = ([OutTok.str "r0"], HandlerStatus.handled) :=
  (register_info_spec regInfoCfg 0).1 (fun k => if k = 0 then some "r0" else none) "r0" rfl rfl

/-- Claim C10: When `finish_exec` accepts a thread-bearing break reason
(`SwBreak`, `HwBreak`, `Watch`), the resulting state has
`current_mem_tid` set to the reported thread and `current_resume_tid`
set to `WithId` of that thread; every other stop reason leaves the
state unchanged. -/
theorem finish_exec_state_effects_spec (st : GdbState) (tgt : TargetCfg) :
    (∀ tid r, finishExec st tgt (ThreadStopReason.swBreak tid) = Except.ok r →
      r.1.currentMemTid = tid ∧ r.1.currentResumeTid = SpecificIdKind.withId tid)
    ∧ (∀ tid r, finishExec st tgt (ThreadStopReason.hwBreak tid) = Except.ok r →
      r.1.currentMemTid = tid ∧ r.1.currentResumeTid = SpecificIdKind.withId tid)
    ∧ (∀ tid kind addr r, finishExec st tgt (ThreadStopReason.watch tid kind addr) = Except.ok r →
      r.1.currentMemTid = tid ∧ r.1.currentResumeTid = SpecificIdKind.withId tid)
    ∧ (∀ sr r, ¬ isBreakLike sr → finishExec st tgt sr = Except.ok r → r.1 = st) := by
  refine ⟨?_, ?_, ?_, ?_⟩
  · intro tid r hr
    simp only [finishExec, writeBreakCommon] at hr
    split at hr
    · injection hr with hr
      subst hr
      exact ⟨rfl, rfl⟩
    · simp_all
  · intro tid r hr
    simp only [finishExec, writeBreakCommon] at hr
    split at hr
    · injection hr with hr
      subst hr
      exact ⟨rfl, rfl⟩
    · simp_all
  · intro tid kind addr r hr
    simp only [finishExec, writeBreakCommon] at hr
    split at hr
    · injection hr with hr
      subst hr
      exact ⟨rfl, rfl⟩
    · simp_all
  · intro sr r hnb hr
    cases sr with
    | doneStep =>
      simp only [finishExec] at hr
      injection hr with hr
      subst hr
      rfl
    | signal sig =>
      simp only [finishExec] at hr
      injection hr with hr
      subst hr
      rfl
    | exited code =>
      simp only [finishExec] at hr
      injection hr with hr
      subst hr
      rfl
    | terminated sig =>
      simp only [finishExec] at hr
      injection hr with hr
      subst hr
      rfl
    | swBreak tid => simp [isBreakLike] at hnb
    | hwBreak tid => simp [isBreakLike] at hnb
    | watch tid kind addr => simp [isBreakLike] at hnb
    | replayLog pos =>
      simp only [finishExec] at hr
      split at hr
      · injection hr with hr
        subst hr
        rfl
      · simp at hr
    | catchSyscall number position =>
      simp only [finishExec] at hr
      split at hr
      · injection hr with hr
        subst hr
        rfl
      · simp at hr

theorem finish_exec_state_effects_witness :
    ({ currentMemTid := 5, currentResumeTid := SpecificIdKind.withId 5 } : GdbState).currentMemTid = 5
    ∧ ({ currentMemTid := 5, currentResumeTid := SpecificIdKind.withId 5 } : GdbState).currentResumeTid
        = SpecificIdKind.withId 5 :=
  (finish_exec_state_effects_spec st0 swBpCfg).1 5
    ({ currentMemTid := 5, currentResumeTid := SpecificIdKind.withId 5 },
     [OutTok.str "T05", OutTok.str "thread:",
      OutTok.threadId ⟨some (SpecificIdKind.withId 1), SpecificIdKind.withId 5⟩,
      OutTok.str ";", OutTok.str "swbreak:;"], FinishExecStatus.handled) rfl

/-- Claim C8, counterexample: A host exposing only hardware watchpoints:
`qSupported` advertises `hwbreak+`, yet reporting a `HwBreak` stop
reason through `finish_exec` fails with `UnsupportedStopReason` — an
advertised feature whose handler is unreachable. -/
theorem hwbreak_advertised_unreachable_counterexample :
    OutTok.str ";hwbreak+" ∈ qSupportedToks watchOnlyCfg 4096
    ∧ finishExec st0 watchOnlyCfg (ThreadStopReason.hwBreak 1) =
        Except.error Err.unsupportedStopReason := by
  refine ⟨by decide, rfl⟩

/-- Claim C8, amended: for every host, `swbreak+` is advertised exactly
when reporting a `SwBreak` stop reason succeeds; whenever the host
exposes a hardware-breakpoint handle, `hwbreak+` is advertised and
reporting `HwBreak` produces the `hwbreak` stop packet; and without
that handle, reporting `HwBreak` fails with `UnsupportedStopReason`
(so the unrestricted advertised-implies-reachable property fails only
for `hwbreak+` on hosts with hardware watchpoints but no hardware
breakpoints, which advertise `hwbreak+` yet cannot report it). -/
theorem hwbreak_gating_amended_spec (tgt : TargetCfg) (st : GdbState) (tid n : Nat) :
    (OutTok.str ";swbreak+" ∈ qSupportedToks tgt n ↔
        ∃ r, finishExec st tgt (ThreadStopReason.swBreak tid) = Except.ok r)
    ∧ (bpCap tgt (fun b => b.hwBreakpoint) →
        OutTok.str ";hwbreak+" ∈ qSupportedToks tgt n
        ∧ finishExec st tgt (ThreadStopReason.hwBreak tid) =
            Except.ok ((writeBreakCommon st tid).1,
              (writeBreakCommon st tid).2 ++ [OutTok.str "hwbreak:;"],
              FinishExecStatus.handled))
    ∧ (¬ bpCap tgt (fun b => b.hwBreakpoint) →
        finishExec st tgt (ThreadStopReason.hwBreak tid) =
          Except.error Err.unsupportedStopReason) := by
  refine ⟨?_, ?_, ?_⟩
  · rw [mem_qSupported_swbreak]
    constructor
    · intro hc
      refine ⟨((writeBreakCommon st tid).1,
        (writeBreakCommon st tid).2 ++ [OutTok.str "swbreak:;"], FinishExecStatus.handled), ?_⟩
      simp [finishExec, hc]
    · rintro ⟨r, hr⟩
      by_cases hc : bpCap tgt (fun b => b.swBreakpoint)
      · exact hc
      · simp [finishExec, hc] at hr
  · intro h
    constructor
    · rw [mem_qSupported_hwbreak]
      simp only [bpCap] at h ⊢
      rcases hbp : tgt.breakpoints with _ | bp <;> rw [hbp] at h <;> simp_all
    · simp [finishExec, h]
  · intro h
    simp [finishExec, h]

theorem hwbreak_gating_amended_witness :
    OutTok.str ";hwbreak+" ∈ qSupportedToks hwBpCfg 4096
    ∧ finishExec st0 watchOnlyCfg (ThreadStopReason.hwBreak 1) =
        Except.error Err.unsupportedStopReason :=
  ⟨((hwbreak_gating_amended_spec hwBpCfg st0 1 4096).2.1 (by decide)).1,
   (hwbreak_gating_amended_spec watchOnlyCfg st0 1 4096).2.2 (by decide)⟩

theorem vcont_multi_thread_witness :
    (doVContMultiThread mtCfg [some ⟨VContKind.step, none⟩]).2.isSome
    ∧ HostCall.resume ∉ (doVContMultiThread mtCfg [some ⟨VContKind.step, none⟩]).1 :=
  (vcont_multi_thread_spec mtCfg [some ⟨VContKind.step, none⟩]).2.1 (by decide)

theorem vcont_single_thread_witness :
    doVContSingleThread stepCfg [some ⟨VContKind.step, none⟩] = ([HostCall.step none], none) :=
  ((vcont_single_thread_spec stepCfg [some ⟨VContKind.step, none⟩]).2
    ⟨VContKind.step, none⟩ (Or.inl rfl)).2.2.1 (by decide) rfl

theorem mem_read_chunking_witness :
    (handleMemRead (fun a => a % 256) 16 3735928559 64).1 =
      (List.range ((64 + 16 - 1) / 16)).map
        (fun k => HostCall.readAddrs (3735928559 + k * 16) (min 16 (64 - k * 16))) :=
  (mem_read_chunking_spec (fun a => a % 256) 16 3735928559 64 (by decide) (by decide)).1

end Gdbstub
